import Mathlib

/-!
Verification development for the curation / enrichment-accounting subsystem of
the `company-research-agent` repository.

The definitions below are a shallow embedding of the Python source:

* `src/backend/nodes/curator.py` (class `Curator`)
* `src/backend/nodes/researchers/company.py` (class `CompanyAnalyzer`)

Modelling conventions, used throughout:

* Python dicts whose insertion order matters are modelled as association
  lists `List (String × _)`; a key is looked up with `List.lookup` and the
  first occurrence wins, exactly like a dict built by first-insertion.
* Keys that may be absent from the `ResearchState` dict are modelled as
  `Option` fields; `state.get(k, default)` becomes `Option.getD`.
* Python floats (relevance scores) are modelled as rationals `ℚ`; the
  comparisons the source performs (`score >= 0.4` for scores such as 0.9,
  0.5) are exact at these magnitudes, so no rounding behaviour is lost.
* `float(x)` applied to a loosely-typed field either yields a number, or
  raises `ValueError`/`TypeError` (for `None`, non-numeric strings, ...).
  Such fields are modelled by small inductive types with an explicit
  "coercion fails" constructor.
* WebSocket notifications (`websocket_manager.send_status_update`) are
  fire-and-forget effects that do not alter any field a claim mentions
  (the enrichment-count refresh inside the send helpers of `company.py`
  happens only when a websocket manager is attached, which is the
  not-modelled case); they are therefore dropped from the embedding.
* Exceptions raised by collaborators are modelled by explicit boolean
  failure flags at the `try:` boundaries where the source catches them.
-/

namespace CompanyResearch

/-- The value found under a document's `score` key (curator.py line 43,
`float(doc.get('score', 0))`): the key can be absent (the dict `get`
default `0` applies), hold a numeric value (`float` succeeds), or hold a
value on which `float` raises (`None`, a non-numeric string, ...). -/
inductive ScoreVal where
  | absent : ScoreVal
  | num : ℚ → ScoreVal
  | malformed : ScoreVal
deriving DecidableEq, Repr

/-- A value stored in the `employee_count` mapping or under a document's
`employee_count` key: numeric (`isinstance(count, (int, float))` holds),
or non-numeric. -/
inductive CountVal where
  | cnum : ℚ → CountVal
  | cbad : CountVal
deriving DecidableEq, Repr

/-- The `evaluation` record attached to a surviving document
(curator.py lines 48-52). -/
structure Evaluation where
  overall_score : ℚ
  query : String
  relevance_reason : String
deriving DecidableEq, Repr

/-- A research document (spec §3 "Document"): a loosely-typed record; the
fields a claim touches are modelled, with `Option`/inductive wrappers where
the source code defends against absence or wrong types. -/
structure Doc where
  title : String := ""
  url : String := ""
  raw_content : String := ""
  score : ScoreVal := .absent
  query : String := ""
  doc_type : String := ""
  evaluation : Option Evaluation := none
  employee_count : Option CountVal := none
deriving DecidableEq, Repr

/-- Per-category `{enriched, total}` pair of the enrichment snapshot. -/
structure CatCount where
  enriched : Nat
  total : Nat
deriving DecidableEq, Repr

/-- The `employeeCount` section of the enrichment snapshot
(curator.py lines 164-171). -/
structure EmployeeSection where
  enriched : Nat
  total : Nat
  data : List (String × Nat)
  hasData : Bool
  totalCount : Nat
  validCounts : Nat
deriving DecidableEq, Repr

/-- The full `EnrichmentSnapshot` built by `build_enrichment_counts`
(curator.py lines 159-184). -/
structure Enrichment where
  company : CatCount
  employeeCount : EmployeeSection
  industry : CatCount
  financial : CatCount
  news : CatCount
deriving DecidableEq, Repr

/-- The shape of the `enrichment_counts` (snake_case) state key: it is
written by several producers with differing subsets of keys, so every
section is optional.  An absent field models an absent dict key; a value
with every field `none` models the empty dict `{}`. -/
structure PartialEnrichment where
  company : Option CatCount := none
  employeeCount : Option EmployeeSection := none
  industry : Option CatCount := none
  financial : Option CatCount := none
  news : Option CatCount := none
deriving DecidableEq, Repr

/-- Python dict truthiness for `enrichment_counts`: the empty dict is falsy
(curator.py line 243 `if preserved_data.get('enrichment_counts'):`). -/
def PartialEnrichment.isEmptyDict (p : PartialEnrichment) : Bool :=
  p.company.isNone && p.employeeCount.isNone && p.industry.isNone &&
    p.financial.isNone && p.news.isNone

/-- One `{"initial": _, "kept": _}` entry of `doc_counts`
(curator.py lines 348, 365-368). -/
structure DocCount where
  initial : Nat
  kept : Nat
deriving DecidableEq, Repr

/-- The `doc_counts` dict accumulated by `curate_data`, keyed by the
`data_field` names; a category not processed leaves its entry absent. -/
structure DocCounts where
  financial_data : Option DocCount := none
  news_data : Option DocCount := none
  industry_data : Option DocCount := none
  company_data : Option DocCount := none
deriving DecidableEq, Repr

/-- The shared `ResearchState` dict (spec §3), restricted to the keys this
subsystem reads or writes.  `Option` marks keys that may be absent from the
dict.  The raw per-category mappings are read only through `state.get(k, {})`
(absence and emptiness are indistinguishable), so they are plain lists.
The `websocket_manager`/`job_id` keys select notification side effects
only and are not modelled.  The `references` keys written by the external
`utils.references` module (not part of the sources under scrutiny) are read
by no modelled component and are omitted. -/
structure ResearchState where
  company : Option String := none
  industry : Option String := none
  hq_location : Option String := none
  company_url : Option String := none
  company_data : List (String × Doc) := []
  industry_data : List (String × Doc) := []
  financial_data : List (String × Doc) := []
  news_data : List (String × Doc) := []
  curated_company_data : Option (List (String × Doc)) := none
  curated_industry_data : Option (List (String × Doc)) := none
  curated_financial_data : Option (List (String × Doc)) := none
  curated_news_data : Option (List (String × Doc)) := none
  employee_count : Option (List (String × CountVal)) := none
  Company_Count : Option Int := none
  enrichment_counts : Option PartialEnrichment := none
  enrichmentCounts : Option Enrichment := none
  messages : List String := []
deriving DecidableEq, Repr

/-! ## URL normalisation (curator.py lines 305-319)

The source runs, for each raw key `url` of a category mapping:

```
parsed = urlparse(url)
if not parsed.scheme:
    url = urljoin('https://', url)
clean_url = parsed._replace(query='', fragment='').geturl()
```

`clean_url` is computed from `parsed`, the parse of the ORIGINAL string;
the reassigned local `url` is never parsed again nor used afterwards, so
the scheme-prepending branch has no effect on the key that is produced.
For the URL shapes exercised here, `geturl` after `_replace(query='',
fragment='')` returns the input with the `?query` and `#fragment` parts
removed (the fragment starts at the first `#`; the query at the first `?`
before it; dropping everything from the first of the two characters
onwards is the same operation). -/

/-- Characters `urlparse` accepts inside a scheme. -/
def schemeChar (c : Char) : Bool :=
  c.isAlpha || c.isDigit || c = '+' || c = '-' || c = '.'

/-- Whether `urlparse` recognises a scheme in `url` (`parsed.scheme` is
non-empty): a `':'` occurs, and the non-empty part before the first `':'`
starts with a letter and consists of scheme characters. -/
def hasScheme (url : String) : Bool :=
  url.data.contains ':' &&
    match url.data.takeWhile (fun c => c ≠ ':') with
    | [] => false
    | c :: rest => c.isAlpha && rest.all schemeChar

/-- The `clean_url` the source computes for a raw key: the original string
with query and fragment stripped.  The conditional `urljoin('https://', url)`
of line 310 only reassigns a local that is no longer used, so it does not
appear here; `hasScheme` (its guard) is retained for stating claims about
scheme presence. -/
def cleanUrl (url : String) : String :=
  ⟨url.data.takeWhile (fun c => c ≠ '?' && c ≠ '#')⟩

/-! ## Document evaluation (curator.py lines 19-83) -/

/-- The constant `self.relevance_threshold = 0.4` (curator.py line 16), as a rational.
(The rational is given in normal form — numerator `2`, denominator `5` —
because the arithmetic operations of `Rat` are `@[irreducible]` and
concrete score comparisons must evaluate; `relevance_threshold_eq` below
identifies it with `2/5`.) -/
def relevance_threshold : ℚ := ⟨2, 5, by decide, by decide⟩

lemma relevance_threshold_eq : relevance_threshold = 2/5 := by
  rw [show relevance_threshold = Rat.mk' 2 5 from rfl, Rat.mk'_eq_divInt,
    Rat.divInt_eq_div]
  norm_num

/-- The coercion `float(doc.get('score', 0))` (curator.py line 43): `none` models the
raised `ValueError`/`TypeError` that line 73 catches. -/
def coerceScore : ScoreVal → Option ℚ
  | .absent => some 0
  | .num q => some q
  | .malformed => none

/-- The templated `relevance_reason` string (curator.py line 51),
`f"Score {score:.4f} meets threshold {threshold}"`.  No claim reads this
text, so the decimal rendering of the score inside it is abbreviated; the
string is produced by the same template for every kept document. -/
def relevanceReason (q : ℚ) : String :=
  let _ := q
  "Score meets threshold 0.4"

/-- The construction `{**doc, "evaluation": {...}}` (curator.py lines 46-53): a fresh
document value carrying the evaluation record. -/
def annotate (d : Doc) (q : ℚ) : Doc :=
  { d with evaluation := some ⟨q, d.query, relevanceReason q⟩ }

/-- Sort key `float(x['evaluation']['overall_score'])` (curator.py
line 81); every document reaching a sort carries an evaluation, so the
default `0` of the `Option` read is never exercised. -/
def scoreOf (d : Doc) : ℚ :=
  (d.evaluation.map Evaluation.overall_score).getD 0

/-- Stable descending insertion: `a` is placed after every element whose
key is `≥` its own, matching the stability of Python's `sort(...,
reverse=True)` (equal keys keep encounter order). -/
def insertByDesc (key : α → ℚ) (a : α) : List α → List α
  | [] => [a]
  | x :: xs => if key a ≤ key x then x :: insertByDesc key a xs else a :: x :: xs

/-- Stable descending sort by `key`, the embedding of
`list.sort(key=..., reverse=True)` / `sorted(..., reverse=True)`. -/
def sortByDesc (key : α → ℚ) : List α → List α
  | [] => []
  | x :: xs => insertByDesc key x (sortByDesc key xs)

/-- The body of the evaluation loop for one document (curator.py lines
41-75): coerce the score (a failure is caught and the document skipped);
keep and annotate the document when the score meets the threshold. -/
def evalStep (acc : List Doc) (d : Doc) : List Doc :=
  match coerceScore d.score with
  | none => acc
  | some q =>
    if relevance_threshold ≤ q then acc ++ [annotate d q] else acc

/-- Embeds `Curator.evaluate_documents` (curator.py lines 19-83).  The per-document
`try` catches `float`'s `ValueError`/`TypeError` and continues with the next
document; `wholesaleRaise` models an exception hitting the OUTER `try`
(e.g. a websocket send failing mid-loop), upon which the whole batch
degrades to `[]` (lines 76-78).  The `context` parameter of the source is
never read and is omitted. -/
def evaluate_documents (docs : List Doc) (wholesaleRaise : Bool) : List Doc :=
  if docs.isEmpty then []
  else if wholesaleRaise then []
  else sortByDesc scoreOf (docs.foldl evalStep [])

/-- The per-document outcome of the evaluation loop, for stating what the
fold computes: `none` when the document is dropped (score missing — the
`get` default `0` is below threshold —, malformed, or below threshold),
`some` of the annotated document otherwise. -/
def evalOne (d : Doc) : Option Doc :=
  match coerceScore d.score with
  | none => none
  | some q => if relevance_threshold ≤ q then some (annotate d q) else none

/-! ## Employee-count validation and enrichment accounting
(curator.py lines 85-189) -/

/-- The validation applied to one employee-count value, common to the state
filter (curator.py lines 129-136) and the company-data fallback (lines
96-102): the value must be numeric (`isinstance(count, (int, float))`) and
positive, then `clean = int(count)` (truncation toward zero; the floor, as
the value is positive) must lie in `[1, 10000000]`.  Entries failing any
check are excluded, not replaced. -/
def cleanCount : CountVal → Option Nat
  | .cnum q =>
    if 0 < q then
      let c := (⌊q⌋).toNat
      if 1 ≤ c ∧ c ≤ 10000000 then some c else none
    else none
  | .cbad => none

/-- The filtering loop over `employee_count_dict.items()` (curator.py lines
126-139): accumulates the dict of valid entries (in encounter order) and
the running `total_employee_count`.  On an empty dict the guarded loop is
skipped, which coincides with folding over the empty list. -/
def validStep (acc : List (String × Nat) × Nat) (p : String × CountVal) :
    List (String × Nat) × Nat :=
  match cleanCount p.2 with
  | some n => (acc.1 ++ [(p.1, n)], acc.2 + n)
  | none => acc

def validateCounts (ec : List (String × CountVal)) : List (String × Nat) × Nat :=
  ec.foldl validStep ([], 0)

/-- The entries `validateCounts` keeps, as a `filterMap` (for reasoning). -/
def validKept (ec : List (String × CountVal)) : List (String × Nat) :=
  ec.filterMap (fun p => (cleanCount p.2).map (fun n => (p.1, n)))

/-- Embeds `Curator._extract_employee_count_from_company_data` (curator.py lines
85-106): the fallback scan of the company-data documents for an
`employee_count` field, applying the same range validation.  Every value of
the typed `company_data` mapping is a document (`isinstance(data, dict)`
holds); an absent `employee_count` key or a non-numeric/out-of-range value
is skipped. -/
def extractStep (acc : List (String × Nat)) (p : String × Doc) :
    List (String × Nat) :=
  match p.2.employee_count with
  | some v =>
    match cleanCount v with
    | some n => acc ++ [(p.1, n)]
    | none => acc
  | none => acc

def _extract_employee_count_from_company_data
    (company_data : List (String × Doc)) : List (String × Nat) :=
  company_data.foldl extractStep []

/-- The `(valid_employee_counts, total_employee_count)` pair computed by
`build_enrichment_counts` (curator.py lines 122-145): validate the state
mapping; when nothing valid remains and company data exists, fall back to
extraction from the company documents (with `total` recomputed as the sum
of the extracted values, line 145). -/
def validatedPair (s : ResearchState) : List (String × Nat) × Nat :=
  let v0 := validateCounts (s.employee_count.getD [])
  if v0.1.isEmpty && !s.company_data.isEmpty then
    let v := _extract_employee_count_from_company_data s.company_data
    (v, (v.map Prod.snd).sum)
  else v0

/-- The write-back of the validated values into state (curator.py lines
147-156): the validated mapping and its size when non-empty, the empty
structure otherwise.  The stored values are plain ints, i.e. numeric
`CountVal`s. -/
def writeBack (s : ResearchState) (valid : List (String × Nat)) : ResearchState :=
  if !valid.isEmpty then
    { s with
      employee_count := some (valid.map (fun p => (p.1, CountVal.cnum (p.2 : ℚ))))
      Company_Count := some (valid.length : Int) }
  else
    { s with employee_count := some [], Company_Count := some 0 }

/-- The snapshot structure assembled at curator.py lines 159-184, from the
(pre-write-back) state and the validated pair. -/
def snapshotOf (s : ResearchState) (valid : List (String × Nat)) (total : Nat) :
    Enrichment :=
  { company :=
      { enriched := (s.curated_company_data.getD []).length
        total := s.company_data.length }
    employeeCount :=
      { enriched := total
        total := 1
        data := valid
        hasData := !valid.isEmpty && decide (0 < total)
        totalCount := total
        validCounts := valid.length }
    industry :=
      { enriched := (s.curated_industry_data.getD []).length
        total := s.industry_data.length }
    financial :=
      { enriched := (s.curated_financial_data.getD []).length
        total := s.financial_data.length }
    news :=
      { enriched := (s.curated_news_data.getD []).length
        total := s.news_data.length } }

/-- Embeds `Curator.build_enrichment_counts` (curator.py lines 108-189): validates
the employee-count data, writes the validated values back into state, and
returns the assembled snapshot.  (The `Company_Count` read at line 116 is
only logged.)  The Python function mutates `state` and returns the
snapshot; here the mutated state is the first component. -/
def build_enrichment_counts (s : ResearchState) : ResearchState × Enrichment :=
  let vp := validatedPair s
  (writeBack s vp.1, snapshotOf s vp.1 vp.2)

/-! ## The fact extractor / validator
(`CompanyAnalyzer._validate_and_process_employee_count`,
company.py lines 78-101) -/

/-- Digit-string to integer, as `int()` reads a string of digits. -/
def digitsToNat (cs : List Char) : Nat :=
  cs.foldl (fun a c => 10 * a + (c.toNat - 48)) 0

/-- Embeds `CompanyAnalyzer._validate_and_process_employee_count` (company.py
lines 78-101): take the part of the answer before any `(`, drop every
non-digit character (`re.sub(r'[^\d]', '', ...)`; the interleaved `strip()`
removes only whitespace, which the digit filter drops anyway), parse the
digits, and range-check into `[1, 10000000]`; any failure yields the
fallback `1`.  `int()` on an unbounded digit string cannot raise, so the
function is total. -/
def _validate_and_process_employee_count (raw : String) : Nat :=
  let beforeParen := raw.data.takeWhile (fun c => c ≠ '(')
  let digits := beforeParen.filter Char.isDigit
  if digits.isEmpty then 1
  else
    let n := digitsToNat digits
    if 1 ≤ n ∧ n ≤ 10000000 then n else 1

/-! ## The employee-count block of `CompanyAnalyzer.analyze`
(company.py lines 246-303) -/

/-- Python dict assignment `m[k] = v`: an existing key keeps its position
and gets the new value; a new key is appended. -/
def dictInsert (k : String) (v : CountVal) :
    List (String × CountVal) → List (String × CountVal)
  | [] => [(k, v)]
  | (k', v') :: rest =>
    if k' = k then (k, v) :: rest else (k', v') :: dictInsert k v rest

/-- The key slug `company.lower().replace(' ', '-')` (company.py lines 276, 296). -/
def companySlug (company : String) : String :=
  (company.toLower).map (fun c => if c = ' ' then '-' else c)

/-- The employee-count analysis block of `CompanyAnalyzer.analyze`
(company.py lines 246-303), the part that writes `employee_count` and
`Company_Count` into state.  `llmAnswer` is the text returned by
`get_employee_count_via_llm`; `stepRaises` models an exception escaping the
block's `try` (a collaborator failure such as a websocket send raising —
the LLM call catches its own errors), which the `except` at line 290
handles by storing the fallback `100` and `Company_Count = 1`.  Returns the
updated state and the `employee_count_value` the block determined. -/
def employeeCountStep (s : ResearchState) (llmAnswer : String)
    (stepRaises : Bool) : ResearchState × Nat :=
  let company := s.company.getD "Unknown Company"
  let company_url := s.company_url.getD (companySlug company)
  if stepRaises then
    -- `except` branch, company.py lines 290-303
    let ec := s.employee_count.getD []
    ({ s with
       employee_count := some (dictInsert company_url (.cnum 100) ec)
       Company_Count := some 1 }, 100)
  else
    -- normal path, company.py lines 269-288
    let v := _validate_and_process_employee_count llmAnswer
    let ec := s.employee_count.getD []
    ({ s with
       employee_count := some (dictInsert company_url (.cnum (v : ℚ)) ec)
       Company_Count := some (if 0 < v then 1 else 0) }, v)

/-! ## The category curation pipeline (`Curator.curate_data`,
curator.py lines 251-441)

The source first builds `curation_tasks` (dedup per category, lines
297-322) and then processes the tasks (lines 324-378).  No category's
dedup reads anything a previous category's processing writes (processing
writes only `curated_*` keys and `doc_counts`), so the two loops compose
to one pass per category, in the order of the `data_types` dict literal:
financial, news, industry, company. -/

/-- The four data categories (`data_types` keys, curator.py lines 290-295). -/
inductive DataCategory where
  | financial : DataCategory
  | news : DataCategory
  | industry : DataCategory
  | company : DataCategory
deriving DecidableEq, Repr

/-- The `doc_type` tag of a category (second tuple component of
`data_types`). -/
def DataCategory.tag : DataCategory → String
  | .financial => "financial"
  | .news => "news"
  | .industry => "industry"
  | .company => "company"

/-- The raw mapping `state.get(data_field, {})` per category. -/
def DataCategory.dataOf (s : ResearchState) : DataCategory → List (String × Doc)
  | .financial => s.financial_data
  | .news => s.news_data
  | .industry => s.industry_data
  | .company => s.company_data

/-- The write `state[f'curated_{data_field}'] = relevant_docs` (curator.py line 378). -/
def setCurated (s : ResearchState) : DataCategory → List (String × Doc) → ResearchState
  | .financial, v => { s with curated_financial_data := some v }
  | .news, v => { s with curated_news_data := some v }
  | .industry, v => { s with curated_industry_data := some v }
  | .company, v => { s with curated_company_data := some v }

/-- The `curated_{data_field}` state key per category. -/
def curatedOf (s : ResearchState) : DataCategory → Option (List (String × Doc))
  | .financial => s.curated_financial_data
  | .news => s.curated_news_data
  | .industry => s.curated_industry_data
  | .company => s.curated_company_data

/-- The write `doc_counts[data_field] = cnt`. -/
def DocCounts.set (dc : DocCounts) : DataCategory → DocCount → DocCounts
  | .financial, c => { dc with financial_data := some c }
  | .news, c => { dc with news_data := some c }
  | .industry, c => { dc with industry_data := some c }
  | .company, c => { dc with company_data := some c }

/-- The `doc_counts` entry of a category. -/
def DocCounts.get (dc : DocCounts) : DataCategory → Option DocCount
  | .financial => dc.financial_data
  | .news => dc.news_data
  | .industry => dc.industry_data
  | .company => dc.company_data

/-- The dedup loop over one raw category mapping (curator.py lines
305-322): iterate the items in order; key each document by its
`clean_url`; the FIRST document seen under a clean key wins and has its
`url` overwritten with the clean form and its `doc_type` set to the
category tag; later duplicates are dropped.  The result carries the
insertion order of `unique_docs` (its keys are the `urls` list, its values
the `docs` list of the task tuple). -/
def dedupStep (tag : String) (unique : List (String × Doc)) (p : String × Doc) :
    List (String × Doc) :=
  let clean := cleanUrl p.1
  if unique.any (fun q => q.1 == clean) then unique
  else unique ++ [(clean, { p.2 with url := clean, doc_type := tag })]

def dedupDocs (tag : String) (data : List (String × Doc)) : List (String × Doc) :=
  data.foldl (dedupStep tag) []

/-- Outcome of processing one category (curator.py lines 299-378). -/
inductive CatOutcome where
  /-- `if not data: continue` (line 301): no task is queued, no count is
  recorded. -/
  | skipped : CatOutcome
  /-- `if not evaluated_docs:` (line 346): the count records
  `{initial, kept: 0}` and no curated key is written. -/
  | emptyEval : Nat → CatOutcome
  /-- The curated mapping (zipped back to the dedup keys by position,
  sorted by score, capped at 30) and the initial count. -/
  | curated : List (String × Doc) → Nat → CatOutcome
deriving DecidableEq, Repr

/-- Processing of one category given its raw data (curator.py lines
299-378): dedup, evaluate (`evalRaises` feeds the evaluator's wholesale
failure, upon which it returns `[]` and the category degrades), re-pair the
evaluated documents with the dedup keys positionally (`zip(urls,
evaluated_docs)`, line 352 — the keys are pairwise distinct, so the dict
comprehension keeps every pair), sort by `overall_score` descending
(`sorted(..., reverse=True)`, stable), cap to 30 (lines 360-362). -/
def curateOne (evalRaises : Bool) (tag : String) (data : List (String × Doc)) :
    CatOutcome :=
  if data.isEmpty then .skipped
  else
    let uniq := dedupDocs tag data
    let urls := uniq.map Prod.fst
    let docs := uniq.map Prod.snd
    let evaluated := evaluate_documents docs evalRaises
    if evaluated.isEmpty then .emptyEval docs.length
    else
      let relevant := urls.zip evaluated
      let sorted := sortByDesc (fun p => scoreOf p.2) relevant
      let capped := if 30 < sorted.length then sorted.take 30 else sorted
      .curated capped docs.length

/-- One iteration of the processing loop (curator.py lines 326-378),
threading the state and `doc_counts`. -/
def curateCategory (evalRaises : DataCategory → Bool)
    (acc : ResearchState × DocCounts) (c : DataCategory) :
    ResearchState × DocCounts :=
  match curateOne (evalRaises c) c.tag (DataCategory.dataOf acc.1 c) with
  | .skipped => acc
  | .emptyEval n => (acc.1, acc.2.set c ⟨n, 0⟩)
  | .curated l n => (setCurated acc.1 c l, acc.2.set c ⟨n, l.length⟩)

/-- The iteration order of the `data_types` dict literal (curator.py lines
290-295). -/
def categoryOrder : List DataCategory :=
  [.financial, .news, .industry, .company]

/-- Embeds `Curator._preserve_critical_state_data` (curator.py lines 216-227):
by-value copies of the employee-count fields and of `enrichment_counts`
(`dict(state.get(k, {}))` — an absent key and an empty dict are both the
empty copy). -/
structure PreservedData where
  employee_count : List (String × CountVal)
  Company_Count : Int
  enrichment_counts : PartialEnrichment
deriving DecidableEq, Repr

def _preserve_critical_state_data (s : ResearchState) : PreservedData :=
  { employee_count := s.employee_count.getD []
    Company_Count := s.Company_Count.getD 0
    enrichment_counts := s.enrichment_counts.getD {} }

/-- Embeds `Curator._restore_critical_state_data` (curator.py lines 229-249):
restore the employee-count fields when the preserved mapping is truthy
(non-empty); merge the preserved `employeeCount` section back into
`enrichment_counts` when the preserved dict is truthy and holds one. -/
def _restore_critical_state_data (s : ResearchState) (p : PreservedData) :
    ResearchState :=
  let s1 :=
    if !p.employee_count.isEmpty then
      { s with
        employee_count := some p.employee_count
        Company_Count := some p.Company_Count }
    else s
  if !p.enrichment_counts.isEmptyDict then
    match p.enrichment_counts.employeeCount with
    | some emp =>
      { s1 with
        enrichment_counts :=
          some { s1.enrichment_counts.getD {} with employeeCount := some emp } }
    | none => s1
  else s1

/-- The one message `curate_data` appends to `state['messages']`
(curator.py lines 288, 404-407).  The narrative content (emojis, per-
category counts) is not referenced by any claim and is abbreviated to its
header line. -/
def curationMessage (s : ResearchState) : String :=
  "Curating research data for " ++ s.company.getD "Unknown Company"

/-- Embeds `Curator.curate_data` (curator.py lines 251-441): preserve the critical
state, curate each category in `data_types` order, restore the critical
state, build the enrichment counts (which validates and writes back the
employee-count fields), attach the snapshot under `enrichmentCounts`, and
append the narration message.  The references-processing step (lines
384-395) calls a module outside the curator sources and writes only the
`references*` keys, which no modelled component reads; it is omitted.
`evalRaises` injects, per category, a wholesale failure of the document
evaluator (see `evaluate_documents`).  The `doc_counts` dict, observable
through the final status update (lines 419-424), is the second component. -/
def curate_data (s : ResearchState) (evalRaises : DataCategory → Bool) :
    ResearchState × DocCounts :=
  let preserved := _preserve_critical_state_data s
  let folded := categoryOrder.foldl (curateCategory evalRaises) (s, {})
  let s2 := _restore_critical_state_data folded.1 preserved
  let built := build_enrichment_counts s2
  ({ built.1 with
     enrichmentCounts := some built.2
     messages := built.1.messages ++ [curationMessage s] }, folded.2)

/-- Embeds `Curator.run` (curator.py lines 443-461): on success, the state
`curate_data` returns; when `curate_data` raises (`curateRaises` — the
state `s` is then the shared dict as mutated up to the raise, covered by
quantifying over all states), the `except` branch defaults the
employee-count keys if absent, builds a minimal snapshot (which also
revalidates the employee fields), attaches it, and returns the state
rather than propagating. -/
def runCurator (s : ResearchState) (curateRaises : Bool)
    (evalRaises : DataCategory → Bool) : ResearchState :=
  if curateRaises then
    let s1 :=
      if s.employee_count.isNone then { s with employee_count := some [] } else s
    let s2 :=
      if s1.Company_Count.isNone then { s1 with Company_Count := some 0 } else s1
    let built := build_enrichment_counts s2
    { built.1 with enrichmentCounts := some built.2 }
  else (curate_data s evalRaises).1

/-! ## Object-identity view of one category's curation

The value-level pipeline above ignores that Python mutates the shared doc
dicts in place.  To state claims about object identity ("the same dict"),
the same source lines are embedded once more with an explicit object
store: a `Heap` is the list of live doc dicts, and a doc is referred to by
its index (its identity).  The raw category mapping then maps raw URLs to
doc references; `doc['url'] = clean_url` is a store update at the
reference, and `{**doc, "evaluation": ...}` allocates a fresh reference.
At this level the in-place rewrite of the raw mapping's documents — which
the value-level `dedupDocs` folds into its output instead — becomes
observable through the raw mapping itself. -/

/-- The store of live document dicts; a document's identity is its index. -/
abbrev Heap := List Doc

/-- The updates `doc['url'] = clean_url; doc['doc_type'] = doc_type` on the object
store: the dedup loop of curator.py lines 305-322 over references. -/
def dedupStepH (tag : String) (acc : List (String × Nat) × Heap)
    (p : String × Nat) : List (String × Nat) × Heap :=
  let clean := cleanUrl p.1
  if acc.1.any (fun q => q.1 == clean) then acc
  else
    match acc.2[p.2]? with
    | some d =>
      (acc.1 ++ [(clean, p.2)],
       acc.2.set p.2 { d with url := clean, doc_type := tag })
    | none => acc

def dedupDocsH (tag : String) (data : List (String × Nat)) (h : Heap) :
    List (String × Nat) × Heap :=
  data.foldl (dedupStepH tag) ([], h)

/-- Sort key read through the store. -/
def heapScore (h : Heap) (i : Nat) : ℚ :=
  match h[i]? with
  | some d => scoreOf d
  | none => 0

/-- Embeds `evaluate_documents` over references (curator.py lines 40-83): a kept
document is `{**doc, "evaluation": ...}` — a FRESH dict, allocated at the
end of the store; the original object is not modified by evaluation. -/
def evalStepH (acc : List Nat × Heap) (i : Nat) : List Nat × Heap :=
  match acc.2[i]? with
  | none => acc
  | some d =>
    match coerceScore d.score with
    | none => acc
    | some q =>
      if relevance_threshold ≤ q then
        (acc.1 ++ [acc.2.length], acc.2 ++ [annotate d q])
      else acc

def evaluate_documentsH (ids : List Nat) (h : Heap) : List Nat × Heap :=
  let folded := ids.foldl evalStepH ([], h)
  (sortByDesc (heapScore folded.2) folded.1, folded.2)

/-- One category's curation over the object store (curator.py lines
299-378), the reference-level counterpart of `curateOne`: returns the
curated mapping (raw-URL-normalised keys to doc references) when one is
stored, and the final store. -/
def curateOneH (tag : String) (data : List (String × Nat)) (h : Heap) :
    Option (List (String × Nat)) × Heap :=
  if data.isEmpty then (none, h)
  else
    let deduped := dedupDocsH tag data h
    let urls := deduped.1.map Prod.fst
    let evaluated := evaluate_documentsH (deduped.1.map Prod.snd) deduped.2
    if evaluated.1.isEmpty then (none, evaluated.2)
    else
      let relevant := urls.zip evaluated.1
      let sorted := sortByDesc (fun p => heapScore evaluated.2 p.2) relevant
      let capped := if 30 < sorted.length then sorted.take 30 else sorted
      (some capped, evaluated.2)

/-! ## Shared lemmas -/

lemma insertByDesc_perm (key : α → ℚ) (a : α) (l : List α) :
    (insertByDesc key a l).Perm (a :: l) := by
  induction l with
  | nil => exact List.Perm.refl _
  | cons x xs ih =>
    unfold insertByDesc
    split
    · exact (ih.cons x).trans (List.Perm.swap a x xs)
    · exact List.Perm.refl _

lemma sortByDesc_perm (key : α → ℚ) (l : List α) :
    (sortByDesc key l).Perm l := by
  induction l with
  | nil => exact List.Perm.refl _
  | cons x xs ih =>
    exact (insertByDesc_perm key x (sortByDesc key xs)).trans (ih.cons x)

lemma mem_sortByDesc (key : α → ℚ) (l : List α) (a : α) :
    a ∈ sortByDesc key l ↔ a ∈ l :=
  (sortByDesc_perm key l).mem_iff

lemma evalFold_eq_filterMap (docs : List Doc) (acc : List Doc) :
    docs.foldl evalStep acc = acc ++ docs.filterMap evalOne := by
  induction docs generalizing acc with
  | nil => simp
  | cons d ds ih =>
    simp only [List.foldl_cons, List.filterMap_cons]
    cases hc : coerceScore d.score with
    | none =>
      have h1 : evalStep acc d = acc := by unfold evalStep; rw [hc]
      have h2 : evalOne d = none := by unfold evalOne; rw [hc]
      rw [h1, h2, ih]
    | some q =>
      by_cases ht : relevance_threshold ≤ q
      · have h1 : evalStep acc d = acc ++ [annotate d q] := by
          unfold evalStep; rw [hc]; simp [ht]
        have h2 : evalOne d = some (annotate d q) := by
          unfold evalOne; rw [hc]; simp [ht]
        rw [h1, h2, ih]
        simp
      · have h1 : evalStep acc d = acc := by
          unfold evalStep; rw [hc]; simp [ht]
        have h2 : evalOne d = none := by
          unfold evalOne; rw [hc]; simp [ht]
        rw [h1, h2, ih]

lemma evalOne_eq_some_iff (d0 d : Doc) :
    evalOne d0 = some d ↔
      ∃ q, coerceScore d0.score = some q ∧ relevance_threshold ≤ q ∧
        d = annotate d0 q := by
  unfold evalOne
  cases hc : coerceScore d0.score with
  | none => simp
  | some q =>
    by_cases ht : relevance_threshold ≤ q
    · simp [ht, eq_comm]
    · simp [ht]

lemma lookup_dictInsert (k : String) (v : CountVal)
    (m : List (String × CountVal)) :
    (dictInsert k v m).lookup k = some v := by
  induction m with
  | nil => simp [dictInsert, List.lookup]
  | cons p rest ih =>
    obtain ⟨k', v'⟩ := p
    unfold dictInsert
    by_cases h : k' = k
    · simp [h, List.lookup]
    · simp only [if_neg h, List.lookup]
      have : (k == k') = false := beq_eq_false_iff_ne.mpr (Ne.symm h)
      simp [this, ih]

/-! ## Claim C4 — the fact extractor / validator -/

lemma validator_cases (raw : String) :
    _validate_and_process_employee_count raw = 1 ∨
      (1 ≤ _validate_and_process_employee_count raw ∧
        _validate_and_process_employee_count raw ≤ 10000000) := by
  unfold _validate_and_process_employee_count
  dsimp only
  split
  · exact Or.inl rfl
  · split
    · next h => exact Or.inr h
    · exact Or.inl rfl

/-- C4: for every input string the fact validator
`_validate_and_process_employee_count` returns an integer in
`[1, 10000000]` (and, being a total function, never raises);
`"1200 (2023)"` parses to `1200`, while a digit-free input (`"unknown"`)
and an out-of-range one (`"50000000"`) both return exactly the fallback
`1`. -/
theorem fact_validator_in_range_and_examples :
    (∀ raw : String,
        1 ≤ _validate_and_process_employee_count raw ∧
          _validate_and_process_employee_count raw ≤ 10000000) ∧
    _validate_and_process_employee_count "1200 (2023)" = 1200 ∧
    _validate_and_process_employee_count "unknown" = 1 ∧
    _validate_and_process_employee_count "50000000" = 1 := by
  refine ⟨fun raw => ?_, by decide, by decide, by decide⟩
  rcases validator_cases raw with h | h
  · rw [h]; exact ⟨le_refl 1, by norm_num⟩
  · exact h

/-! ## Claim C1 — the dedup scenario with mixed schemes -/

/-- The two documents of the spec scenario
`{"http://a.com/x?ref=1": {score: 0.9}, "https://a.com/x": {score: 0.5}}`.
The scores are given as normal-form rationals (see `relevance_threshold`);
`exDocA_score`/`exDocB_score` identify them with `9/10` and `1/2`. -/
def exDocA : Doc :=
  { title := "A", url := "http://a.com/x?ref=1",
    score := .num ⟨9, 10, by decide, by decide⟩, query := "qa" }

def exDocB : Doc :=
  { title := "B", url := "https://a.com/x",
    score := .num ⟨1, 2, by decide, by decide⟩, query := "qb" }

lemma exDocA_score : exDocA.score = .num (9/10) := by
  rw [show exDocA.score = ScoreVal.num (Rat.mk' 9 10) from rfl,
    Rat.mk'_eq_divInt, Rat.divInt_eq_div]
  norm_num

lemma exDocB_score : exDocB.score = .num (1/2) := by
  rw [show exDocB.score = ScoreVal.num (Rat.mk' 1 2) from rfl,
    Rat.mk'_eq_divInt, Rat.divInt_eq_div]
  norm_num

def exRawCategory : List (String × Doc) :=
  [("http://a.com/x?ref=1", exDocA), ("https://a.com/x", exDocB)]

/-- C1 counterexample: on the scenario's raw mapping, deduplication yields
TWO candidates — keyed `http://a.com/x` and `https://a.com/x` — not the
claimed single candidate keyed `https://a.com/x`: stripping query and
fragment leaves the schemes distinct, so the two keys never collide. -/
theorem dedup_mixed_scheme_two_candidates :
    (dedupDocs "company" exRawCategory).map Prod.fst =
      ["http://a.com/x", "https://a.com/x"] ∧
    ¬(dedupDocs "company" exRawCategory).length = 1 := by
  constructor
  · rfl
  · decide

/-- C1 amended: for the scenario's raw mapping, deduplication yields two
surviving candidates, each the (only) first-encountered document under its
normalized URL: the 0.9-scored document under `http://a.com/x` and the
0.5-scored one under `https://a.com/x`.  URLs differing only by query or
fragment do collapse; these two differ by scheme as well, so they do not. -/
theorem dedup_mixed_scheme_amended :
    dedupDocs "company" exRawCategory =
      [("http://a.com/x",
        { exDocA with url := "http://a.com/x", doc_type := "company" }),
       ("https://a.com/x",
        { exDocB with url := "https://a.com/x", doc_type := "company" })] := by
  rfl

/-! ## Claim C2 — scheme guarantee of the normalized key -/

/-- C2 (the code contradicts the claim): for the scheme-less raw URL
`"a.com/x"`, the normalized key actually used for the curated set is
`"a.com/x"` itself — no `https://` is prepended, because the source
computes `clean_url` from the parse of the ORIGINAL string and never
re-parses the locally reassigned `url` (curator.py lines 308-311).  The
query/fragment removal does hold. -/
theorem cleanUrl_scheme_not_guaranteed :
    hasScheme "a.com/x" = false ∧
    cleanUrl "a.com/x" = "a.com/x" ∧
    hasScheme (cleanUrl "a.com/x") = false ∧
    (dedupDocs "financial" [("a.com/x", exDocA)]).map Prod.fst = ["a.com/x"] := by
  refine ⟨by decide, rfl, by decide, rfl⟩

/-! ## Claim C8 — evaluation retains exactly the above-threshold documents -/

/-- C8: a document is in the evaluator's output exactly when it is the
annotated form of an input document whose score coerces to a rational
`≥ 0.4` (= `relevance_threshold`); a document whose score is missing
(coerced to the dict-get default `0`), non-numeric (coercion fails), or
below threshold is dropped, and — the characterization holding for every
input document independently — dropping one document never loses the rest
of the batch. -/
theorem evaluation_retains_iff (docs : List Doc) (d : Doc) :
    d ∈ evaluate_documents docs false ↔
      ∃ d0 ∈ docs, ∃ q, coerceScore d0.score = some q ∧
        relevance_threshold ≤ q ∧ d = annotate d0 q := by
  unfold evaluate_documents
  cases docs with
  | nil => simp
  | cons d0 ds =>
    rw [if_neg (by simp), if_neg (by simp)]
    rw [mem_sortByDesc, evalFold_eq_filterMap, List.nil_append,
      List.mem_filterMap]
    constructor
    · rintro ⟨a, ha, hone⟩
      exact ⟨a, ha, (evalOne_eq_some_iff a d).mp hone⟩
    · rintro ⟨a, ha, hq⟩
      exact ⟨a, ha, (evalOne_eq_some_iff a d).mpr hq⟩

/-! ## Claim C10 — the analyzer's collaborator-failure fallback -/

/-- C10: when an exception escapes the employee-count analysis block of
`CompanyAnalyzer.analyze` (a collaborator failure), the value stored under
the company key of `state['employee_count']` is the block's fallback `100`
— which is distinct from the validator's fallback `1` — and
`state['Company_Count']` is set to `1`. -/
theorem analyze_failure_stores_100 (s : ResearchState) (llmAnswer : String) :
    ∃ m, (employeeCountStep s llmAnswer true).1.employee_count = some m ∧
      m.lookup (s.company_url.getD (companySlug (s.company.getD "Unknown Company")))
        = some (.cnum 100) ∧
      (employeeCountStep s llmAnswer true).1.Company_Count = some 1 ∧
      (100 : ℚ) ≠ 1 := by
  refine ⟨_, rfl, lookup_dictInsert _ _ _, rfl, by norm_num⟩

/-! ## Lemmas about the employee-count validation -/

lemma validFold_eq (ec : List (String × CountVal))
    (acc : List (String × Nat) × Nat) :
    ec.foldl validStep acc =
      (acc.1 ++ validKept ec, acc.2 + ((validKept ec).map Prod.snd).sum) := by
  induction ec generalizing acc with
  | nil => simp [validKept]
  | cons p ps ih =>
    rw [List.foldl_cons]
    cases hc : cleanCount p.2 with
    | none =>
      have h1 : validStep acc p = acc := by unfold validStep; rw [hc]
      have h2 : validKept (p :: ps) = validKept ps := by
        unfold validKept; rw [List.filterMap_cons, hc]; rfl
      rw [h1, ih, h2]
    | some n =>
      have h1 : validStep acc p = (acc.1 ++ [(p.1, n)], acc.2 + n) := by
        unfold validStep; rw [hc]
      have h2 : validKept (p :: ps) = (p.1, n) :: validKept ps := by
        unfold validKept; rw [List.filterMap_cons, hc]; rfl
      rw [h1, ih, h2]
      simp [add_assoc]

lemma validateCounts_eq (ec : List (String × CountVal)) :
    validateCounts ec = (validKept ec, ((validKept ec).map Prod.snd).sum) := by
  unfold validateCounts
  rw [validFold_eq]
  simp

lemma cleanCount_range {v : CountVal} {n : Nat} (h : cleanCount v = some n) :
    1 ≤ n ∧ n ≤ 10000000 := by
  cases v with
  | cbad => exact Option.noConfusion h
  | cnum q =>
    unfold cleanCount at h
    dsimp only at h
    split at h
    · split at h
      · next hr => exact (Option.some.inj h) ▸ hr
      · exact Option.noConfusion h
    · exact Option.noConfusion h

lemma validKept_range {ec : List (String × CountVal)} {p : String × Nat}
    (hp : p ∈ validKept ec) : 1 ≤ p.2 ∧ p.2 ≤ 10000000 := by
  unfold validKept at hp
  rw [List.mem_filterMap] at hp
  obtain ⟨a, _, ha⟩ := hp
  cases hc : cleanCount a.2 with
  | none => rw [hc] at ha; simp at ha
  | some n =>
    rw [hc] at ha
    simp only [Option.map_some'] at ha
    cases ha
    exact cleanCount_range hc

/-- The entries the company-data fallback extraction keeps, as a
`filterMap` (for reasoning). -/
def extractKept (cd : List (String × Doc)) : List (String × Nat) :=
  cd.filterMap
    (fun p => (p.2.employee_count.bind cleanCount).map (fun n => (p.1, n)))

lemma extractFold_eq (cd : List (String × Doc)) (acc : List (String × Nat)) :
    cd.foldl extractStep acc = acc ++ extractKept cd := by
  induction cd generalizing acc with
  | nil => simp [extractKept]
  | cons p ps ih =>
    rw [List.foldl_cons]
    cases he : p.2.employee_count with
    | none =>
      have h1 : extractStep acc p = acc := by unfold extractStep; rw [he]
      have h2 : extractKept (p :: ps) = extractKept ps := by
        unfold extractKept; rw [List.filterMap_cons, he]; rfl
      rw [h1, ih, h2]
    | some v =>
      cases hc : cleanCount v with
      | none =>
        have h1 : extractStep acc p = acc := by
          unfold extractStep; rw [he]; dsimp only; rw [hc]
        have h2 : extractKept (p :: ps) = extractKept ps := by
          unfold extractKept; rw [List.filterMap_cons, he]
          simp [hc]
        rw [h1, ih, h2]
      | some n =>
        have h1 : extractStep acc p = acc ++ [(p.1, n)] := by
          unfold extractStep; rw [he]; dsimp only; rw [hc]
        have h2 : extractKept (p :: ps) = (p.1, n) :: extractKept ps := by
          unfold extractKept; rw [List.filterMap_cons, he]
          simp [hc]
        rw [h1, ih, h2]
        simp

lemma extract_eq_extractKept (cd : List (String × Doc)) :
    _extract_employee_count_from_company_data cd = extractKept cd := by
  unfold _extract_employee_count_from_company_data
  rw [extractFold_eq]
  simp

lemma extractKept_range {cd : List (String × Doc)} {p : String × Nat}
    (hp : p ∈ extractKept cd) : 1 ≤ p.2 ∧ p.2 ≤ 10000000 := by
  unfold extractKept at hp
  rw [List.mem_filterMap] at hp
  obtain ⟨a, _, ha⟩ := hp
  cases he : a.2.employee_count with
  | none => rw [he] at ha; simp at ha
  | some v =>
    rw [he] at ha
    simp only [Option.some_bind] at ha
    cases hc : cleanCount v with
    | none => rw [hc] at ha; simp at ha
    | some n =>
      rw [hc] at ha
      simp only [Option.map_some'] at ha
      cases ha
      exact cleanCount_range hc

lemma validatedPair_range {s : ResearchState} {p : String × Nat}
    (hp : p ∈ (validatedPair s).1) : 1 ≤ p.2 ∧ p.2 ≤ 10000000 := by
  unfold validatedPair at hp
  dsimp only at hp
  split at hp
  · rw [extract_eq_extractKept] at hp
    exact extractKept_range hp
  · rw [validateCounts_eq] at hp
    exact validKept_range hp

lemma validatedPair_total (s : ResearchState) :
    (validatedPair s).2 = (((validatedPair s).1).map Prod.snd).sum := by
  unfold validatedPair
  dsimp only
  split
  · rw [extract_eq_extractKept]
  · rw [validateCounts_eq]

lemma cleanCount_natCast {n : Nat} (h1 : 1 ≤ n) (h2 : n ≤ 10000000) :
    cleanCount (.cnum (n : ℚ)) = some n := by
  have h0 : (0 : ℚ) < (n : ℚ) := by exact_mod_cast h1
  unfold cleanCount
  dsimp only
  rw [if_pos h0, Int.floor_natCast, Int.toNat_natCast, if_pos ⟨h1, h2⟩]

lemma validKept_wrap {l : List (String × Nat)}
    (h : ∀ p ∈ l, 1 ≤ p.2 ∧ p.2 ≤ 10000000) :
    validKept (l.map (fun p => (p.1, CountVal.cnum (p.2 : ℚ)))) = l := by
  induction l with
  | nil => rfl
  | cons p ps ih =>
    have hp := h p (List.mem_cons_self p ps)
    unfold validKept
    rw [List.map_cons, List.filterMap_cons]
    dsimp only
    rw [cleanCount_natCast hp.1 hp.2]
    simp only [Option.map_some']
    have := ih (fun q hq => h q (List.mem_cons_of_mem p hq))
    unfold validKept at this
    rw [this]

lemma validatedPair_def (s : ResearchState) :
    validatedPair s =
      if (validateCounts (s.employee_count.getD [])).1.isEmpty
          && !s.company_data.isEmpty then
        ((_extract_employee_count_from_company_data s.company_data),
         ((_extract_employee_count_from_company_data s.company_data).map
            Prod.snd).sum)
      else validateCounts (s.employee_count.getD []) := rfl

lemma writeBack_company_data (s : ResearchState) (valid : List (String × Nat)) :
    (writeBack s valid).company_data = s.company_data := by
  unfold writeBack; split <;> rfl

lemma validatedPair_nil_extract (s : ResearchState)
    (hv : (validatedPair s).1 = []) (hc : s.company_data.isEmpty = false) :
    _extract_employee_count_from_company_data s.company_data = [] := by
  rw [validatedPair_def] at hv
  split at hv
  · exact hv
  · next hcond =>
    exfalso
    apply hcond
    rw [List.isEmpty_iff.mpr hv, hc]
    rfl

lemma validatedPair_writeBack (s : ResearchState) :
    validatedPair (writeBack s (validatedPair s).1) = validatedPair s := by
  have htot := validatedPair_total s
  rcases hv : (validatedPair s).1 with _ | ⟨p, ps⟩
  · -- nothing valid: the write-back stores the empty structure
    have hrhs : validatedPair s = ([], 0) := by
      rw [Prod.ext_iff]
      exact ⟨hv, by rw [htot, hv]; rfl⟩
    have hs' : writeBack s [] =
        { s with employee_count := some [], Company_Count := some 0 } := rfl
    rw [hs', validatedPair_def]
    dsimp only
    cases hcd : s.company_data.isEmpty with
    | true =>
      rw [if_neg (by simp)]
      rw [hrhs]
      rfl
    | false =>
      rw [if_pos (by rfl)]
      rw [validatedPair_nil_extract s hv hcd]
      rw [hrhs]
      rfl
  · -- the validated values are written back and re-validate to themselves
    have hrange : ∀ q ∈ p :: ps, 1 ≤ q.2 ∧ q.2 ≤ 10000000 := by
      intro q hq
      exact validatedPair_range (s := s) (by rw [hv]; exact hq)
    have hs' : writeBack s (p :: ps) =
        { s with
          employee_count :=
            some ((p :: ps).map (fun q => (q.1, CountVal.cnum (q.2 : ℚ))))
          Company_Count := some (((p :: ps).length : Nat) : Int) } := rfl
    rw [hs', validatedPair_def]
    dsimp only
    simp only [Option.getD_some]
    have hvc : validateCounts
        ((p :: ps).map (fun q => (q.1, CountVal.cnum (q.2 : ℚ)))) =
        (p :: ps, ((p :: ps).map Prod.snd).sum) := by
      rw [validateCounts_eq, validKept_wrap hrange]
    rw [hvc]
    rw [if_neg (by simp)]
    rw [Prod.ext_iff]
    exact ⟨hv.symm, by rw [htot, hv]⟩

lemma snapshotOf_writeBack (s : ResearchState) (valid v : List (String × Nat))
    (t : Nat) : snapshotOf (writeBack s valid) v t = snapshotOf s v t := by
  unfold writeBack
  split <;> rfl

/-! ## Claim C6 — idempotence of Enrichment Accounting -/

/-- C6: running `build_enrichment_counts` twice in succession with no
intervening state change produces identical snapshots; this holds for every
state, in particular when the first run filtered out invalid entries, fell
back to company-data extraction, or wrote validated values back. -/
theorem build_enrichment_counts_idempotent (s : ResearchState) :
    (build_enrichment_counts (build_enrichment_counts s).1).2 =
      (build_enrichment_counts s).2 := by
  unfold build_enrichment_counts
  dsimp only
  rw [validatedPair_writeBack, snapshotOf_writeBack]

/-! ## Claim C7 — the post-accounting employee-count invariant -/

/-- C7: after `build_enrichment_counts` runs on any state, the state's
`employee_count` key holds a mapping whose every value is a validated
integer in `[1, 10000000]`, and `Company_Count` equals the number of its
entries. -/
theorem build_company_count_invariant (s : ResearchState) :
    ∃ l, (build_enrichment_counts s).1.employee_count = some l ∧
      (build_enrichment_counts s).1.Company_Count = some ((l.length : Nat) : Int) ∧
      ∀ p ∈ l, ∃ n : Nat, p.2 = CountVal.cnum (n : ℚ) ∧ 1 ≤ n ∧ n ≤ 10000000 := by
  unfold build_enrichment_counts
  dsimp only
  rcases hv : (validatedPair s).1 with _ | ⟨p, ps⟩
  · exact ⟨[], rfl, rfl, by simp⟩
  · have hs' : writeBack s (p :: ps) =
        { s with
          employee_count :=
            some ((p :: ps).map (fun q => (q.1, CountVal.cnum (q.2 : ℚ))))
          Company_Count := some (((p :: ps).length : Nat) : Int) } := rfl
    rw [hs']
    refine ⟨(p :: ps).map (fun q => (q.1, CountVal.cnum (q.2 : ℚ))), rfl, ?_, ?_⟩
    · simp
    · intro q hq
      rw [List.mem_map] at hq
      obtain ⟨a, ha, rfl⟩ := hq
      have hr := validatedPair_range (s := s) (by rw [hv]; exact ha)
      exact ⟨a.2, rfl, hr⟩

/-! ## Claim C3 — `Curator.run` always returns a patched state -/

lemma build_employee_isSome (s : ResearchState) :
    ((build_enrichment_counts s).1.employee_count).isSome = true := by
  unfold build_enrichment_counts
  dsimp only
  unfold writeBack
  split <;> rfl

lemma build_company_count_isSome (s : ResearchState) :
    ((build_enrichment_counts s).1.Company_Count).isSome = true := by
  unfold build_enrichment_counts
  dsimp only
  unfold writeBack
  split <;> rfl

/-- C3: `Curator.run` is total (the embedding returns a state on every
input, modelling that the `except` swallows the exception) and, on every
input state — whether `curate_data` completes or raises at any point
(`curateRaises`, with `s` then being the shared dict as mutated so far) —
the returned state carries the `employee_count` and `Company_Count` keys
(defaulted to the empty mapping and zero when absent, then revalidated by
the accounting pass) and an `EnrichmentSnapshot` under `enrichmentCounts`. -/
theorem run_returns_state_with_snapshot (s : ResearchState) (curateRaises : Bool)
    (evalRaises : DataCategory → Bool) :
    ((runCurator s curateRaises evalRaises).employee_count).isSome = true ∧
    ((runCurator s curateRaises evalRaises).Company_Count).isSome = true ∧
    ((runCurator s curateRaises evalRaises).enrichmentCounts).isSome = true := by
  unfold runCurator
  split
  · dsimp only
    exact ⟨build_employee_isSome _, build_company_count_isSome _, rfl⟩
  · unfold curate_data
    dsimp only
    exact ⟨build_employee_isSome _, build_company_count_isSome _, rfl⟩

/-! ## Frame lemmas for the per-category curation loop -/

lemma dataOf_setCurated (s : ResearchState) (c : DataCategory)
    (v : List (String × Doc)) (c' : DataCategory) :
    DataCategory.dataOf (setCurated s c v) c' = DataCategory.dataOf s c' := by
  cases c <;> cases c' <;> rfl

lemma curatedOf_setCurated_self (s : ResearchState) (c : DataCategory)
    (v : List (String × Doc)) :
    curatedOf (setCurated s c v) c = some v := by
  cases c <;> rfl

lemma curatedOf_setCurated_ne (s : ResearchState) {c c' : DataCategory}
    (v : List (String × Doc)) (h : c' ≠ c) :
    curatedOf (setCurated s c v) c' = curatedOf s c' := by
  cases c <;> cases c' <;> first | rfl | exact absurd rfl h

lemma DocCounts.get_set_self (dc : DocCounts) (c : DataCategory) (v : DocCount) :
    (dc.set c v).get c = some v := by
  cases c <;> rfl

lemma DocCounts.get_set_ne (dc : DocCounts) {c c' : DataCategory} (v : DocCount)
    (h : c' ≠ c) : (dc.set c v).get c' = dc.get c' := by
  cases c <;> cases c' <;> first | rfl | exact absurd rfl h

lemma curateCategory_state_cases (fl : DataCategory → Bool)
    (acc : ResearchState × DocCounts) (c : DataCategory) :
    (curateCategory fl acc c).1 = acc.1 ∨
      ∃ l, (curateCategory fl acc c).1 = setCurated acc.1 c l := by
  unfold curateCategory
  split
  · exact Or.inl rfl
  · exact Or.inl rfl
  · exact Or.inr ⟨_, rfl⟩

lemma curateCategory_dataOf (fl : DataCategory → Bool)
    (acc : ResearchState × DocCounts) (c c' : DataCategory) :
    DataCategory.dataOf ((curateCategory fl acc c).1) c' =
      DataCategory.dataOf acc.1 c' := by
  rcases curateCategory_state_cases fl acc c with h | ⟨l, h⟩
  · rw [h]
  · rw [h, dataOf_setCurated]

lemma curateCategory_curatedOf_ne (fl : DataCategory → Bool)
    (acc : ResearchState × DocCounts) {c c' : DataCategory} (h : c' ≠ c) :
    curatedOf ((curateCategory fl acc c).1) c' = curatedOf acc.1 c' := by
  rcases curateCategory_state_cases fl acc c with he | ⟨l, he⟩
  · rw [he]
  · rw [he, curatedOf_setCurated_ne _ _ h]

lemma curateCategory_counts_ne (fl : DataCategory → Bool)
    (acc : ResearchState × DocCounts) {c c' : DataCategory} (h : c' ≠ c) :
    ((curateCategory fl acc c).2).get c' = acc.2.get c' := by
  unfold curateCategory
  split
  · rfl
  · exact DocCounts.get_set_ne _ _ h
  · exact DocCounts.get_set_ne _ _ h

lemma curateCategory_curatedOf_self (fl fl' : DataCategory → Bool)
    (a a' : ResearchState × DocCounts) (c : DataCategory)
    (hfl : fl c = fl' c)
    (hdata : DataCategory.dataOf a.1 c = DataCategory.dataOf a'.1 c)
    (hcur : curatedOf a.1 c = curatedOf a'.1 c) :
    curatedOf ((curateCategory fl a c).1) c =
      curatedOf ((curateCategory fl' a' c).1) c := by
  unfold curateCategory
  rw [hfl, hdata]
  split
  · exact hcur
  · exact hcur
  · dsimp only
    rw [curatedOf_setCurated_self, curatedOf_setCurated_self]

lemma fold_dataOf (cats : List DataCategory) (fl : DataCategory → Bool)
    (a : ResearchState × DocCounts) (c : DataCategory) :
    DataCategory.dataOf ((cats.foldl (curateCategory fl) a).1) c =
      DataCategory.dataOf a.1 c := by
  induction cats generalizing a with
  | nil => rfl
  | cons c0 rest ih => rw [List.foldl_cons, ih, curateCategory_dataOf]

lemma fold_curatedOf_notMem (cats : List DataCategory) (fl : DataCategory → Bool)
    (a : ResearchState × DocCounts) {c : DataCategory} (hc : c ∉ cats) :
    curatedOf ((cats.foldl (curateCategory fl) a).1) c = curatedOf a.1 c := by
  induction cats generalizing a with
  | nil => rfl
  | cons c0 rest ih =>
    rw [List.mem_cons, not_or] at hc
    rw [List.foldl_cons, ih (curateCategory fl a c0) hc.2,
      curateCategory_curatedOf_ne fl a hc.1]

lemma fold_counts_notMem (cats : List DataCategory) (fl : DataCategory → Bool)
    (a : ResearchState × DocCounts) {c : DataCategory} (hc : c ∉ cats) :
    ((cats.foldl (curateCategory fl) a).2).get c = a.2.get c := by
  induction cats generalizing a with
  | nil => rfl
  | cons c0 rest ih =>
    rw [List.mem_cons, not_or] at hc
    rw [List.foldl_cons, ih (curateCategory fl a c0) hc.2,
      curateCategory_counts_ne fl a hc.1]

lemma fold_curatedOf_eq (cats : List DataCategory) (fl fl' : DataCategory → Bool)
    (a a' : ResearchState × DocCounts)
    (hnd : cats.Nodup)
    (hfl : ∀ c ∈ cats, fl c = fl' c)
    (hdata : ∀ c, DataCategory.dataOf a.1 c = DataCategory.dataOf a'.1 c)
    (hcur : ∀ c ∈ cats, curatedOf a.1 c = curatedOf a'.1 c) :
    ∀ c ∈ cats,
      curatedOf ((cats.foldl (curateCategory fl) a).1) c =
        curatedOf ((cats.foldl (curateCategory fl') a').1) c := by
  induction cats generalizing a a' with
  | nil => intro c hc; cases hc
  | cons c0 rest ih =>
    intro c hc
    rw [List.foldl_cons, List.foldl_cons]
    have hnd' := List.nodup_cons.mp hnd
    rcases List.mem_cons.mp hc with rfl | hcrest
    · rw [fold_curatedOf_notMem rest fl _ hnd'.1,
        fold_curatedOf_notMem rest fl' _ hnd'.1]
      exact curateCategory_curatedOf_self fl fl' a a' c (hfl c hc) (hdata c)
        (hcur c hc)
    · refine ih (curateCategory fl a c0) (curateCategory fl' a' c0) hnd'.2
        (fun d hd => hfl d (List.mem_cons_of_mem _ hd))
        (fun d => ?_) (fun d hd => ?_) c hcrest
      · rw [curateCategory_dataOf, curateCategory_dataOf]
        exact hdata d
      · have hne : d ≠ c0 := fun h => hnd'.1 (h ▸ hd)
        rw [curateCategory_curatedOf_ne fl a hne,
          curateCategory_curatedOf_ne fl' a' hne]
        exact hcur d (List.mem_cons_of_mem _ hd)

lemma restore_curatedOf (s : ResearchState) (p : PreservedData)
    (c : DataCategory) :
    curatedOf (_restore_critical_state_data s p) c = curatedOf s c := by
  cases c <;>
    (unfold _restore_critical_state_data
     dsimp only
     repeat' split) <;> rfl

lemma build_curatedOf (s : ResearchState) (c : DataCategory) :
    curatedOf (build_enrichment_counts s).1 c = curatedOf s c := by
  cases c <;>
    (unfold build_enrichment_counts writeBack
     dsimp only
     split) <;> rfl

/-- The curated key a full `curate_data` pass leaves for a category is the
one the per-category loop computed: the reconciliation, references,
accounting, snapshot and message steps after the loop do not touch the
curated keys. -/
lemma curate_data_curatedOf (s : ResearchState) (fl : DataCategory → Bool)
    (c : DataCategory) :
    curatedOf (curate_data s fl).1 c =
      curatedOf ((categoryOrder.foldl (curateCategory fl)
        (s, ({} : DocCounts))).1) c := by
  unfold curate_data
  dsimp only
  have hfinal : ∀ t : ResearchState, ∀ e : Enrichment, ∀ m : List String,
      curatedOf { t with enrichmentCounts := some e, messages := m } c =
        curatedOf t c := by
    intro t e m
    cases c <;> rfl
  rw [hfinal, build_curatedOf, restore_curatedOf]

lemma curate_data_counts (s : ResearchState) (fl : DataCategory → Bool) :
    (curate_data s fl).2 =
      (categoryOrder.foldl (curateCategory fl) (s, ({} : DocCounts))).2 := rfl

/-- A wholesale failure inside the evaluation loop degrades the whole batch
to the empty list (curator.py lines 76-78). -/
lemma evaluate_documents_raises (docs : List Doc) :
    evaluate_documents docs true = [] := by
  unfold evaluate_documents
  split <;> rfl

/-- When a category has data and its evaluation raises wholesale, the
category records `{initial: N, kept: 0}` with `N` the deduplicated
document count, and writes no curated key. -/
lemma curateOne_raises (tag : String) (data : List (String × Doc))
    (h : data ≠ []) :
    curateOne true tag data = .emptyEval (dedupDocs tag data).length := by
  unfold curateOne
  rw [if_neg (by simp [h])]
  dsimp only
  rw [evaluate_documents_raises]
  simp [List.length_map]

/-- The failure pattern of the C5 scenario: the evaluator raises for the
financial category only. -/
def failFinancialOnly : DataCategory → Bool
  | .financial => true
  | _ => false

/-- No evaluator failure anywhere. -/
def noEvalFailure : DataCategory → Bool := fun _ => false

/-! ## Claim C5 — a failing category does not abort the others -/

/-- C5: when the evaluator raises while the financial category is being
processed (and the financial raw data is non-empty, so the category is
processed at all), the news, industry and company categories still produce
exactly the curated sets they produce in a failure-free run, and the
financial category degrades to a recorded count of
`{initial: N, kept: 0}`, `N` being its deduplicated document count. -/
theorem curation_failure_isolated (s : ResearchState)
    (h : s.financial_data ≠ []) :
    (curate_data s failFinancialOnly).1.curated_news_data =
        (curate_data s noEvalFailure).1.curated_news_data ∧
    (curate_data s failFinancialOnly).1.curated_industry_data =
        (curate_data s noEvalFailure).1.curated_industry_data ∧
    (curate_data s failFinancialOnly).1.curated_company_data =
        (curate_data s noEvalFailure).1.curated_company_data ∧
    ((curate_data s failFinancialOnly).2).financial_data =
      some ⟨(dedupDocs "financial" s.financial_data).length, 0⟩ := by
  have hstep1 : curateCategory failFinancialOnly (s, ({} : DocCounts))
      DataCategory.financial =
      (s, DocCounts.set {} DataCategory.financial
        ⟨(dedupDocs "financial" s.financial_data).length, 0⟩) := by
    unfold curateCategory
    rw [show DataCategory.dataOf (s, ({} : DocCounts)).1 DataCategory.financial
        = s.financial_data from rfl]
    rw [show failFinancialOnly DataCategory.financial = true from rfl]
    rw [curateOne_raises _ _ h]
    rfl
  have hrest : ∀ c ∈ [DataCategory.news, DataCategory.industry,
      DataCategory.company],
      curatedOf (([DataCategory.news, DataCategory.industry,
          DataCategory.company].foldl (curateCategory failFinancialOnly)
          (curateCategory failFinancialOnly (s, {}) DataCategory.financial)).1) c =
        curatedOf (([DataCategory.news, DataCategory.industry,
          DataCategory.company].foldl (curateCategory noEvalFailure)
          (curateCategory noEvalFailure (s, {}) DataCategory.financial)).1) c := by
    refine fold_curatedOf_eq _ _ _ _ _ (by decide) (by decide) (fun d => ?_)
      (fun d hd => ?_)
    · rw [curateCategory_dataOf, curateCategory_dataOf]
    · have hne : d ≠ DataCategory.financial := by
        simp only [List.mem_cons, List.not_mem_nil, or_false] at hd
        rcases hd with rfl | rfl | rfl <;> decide
      rw [curateCategory_curatedOf_ne _ _ hne, curateCategory_curatedOf_ne _ _ hne]
  have hfold : ∀ fl : DataCategory → Bool,
      categoryOrder.foldl (curateCategory fl) (s, ({} : DocCounts)) =
        [DataCategory.news, DataCategory.industry, DataCategory.company].foldl
          (curateCategory fl)
          (curateCategory fl (s, {}) DataCategory.financial) := by
    intro fl; rfl
  refine ⟨?_, ?_, ?_, ?_⟩
  · have := hrest DataCategory.news (by decide)
    rw [show (curate_data s failFinancialOnly).1.curated_news_data =
        curatedOf (curate_data s failFinancialOnly).1 DataCategory.news from rfl,
      show (curate_data s noEvalFailure).1.curated_news_data =
        curatedOf (curate_data s noEvalFailure).1 DataCategory.news from rfl,
      curate_data_curatedOf, curate_data_curatedOf, hfold, hfold]
    exact this
  · have := hrest DataCategory.industry (by decide)
    rw [show (curate_data s failFinancialOnly).1.curated_industry_data =
        curatedOf (curate_data s failFinancialOnly).1 DataCategory.industry from rfl,
      show (curate_data s noEvalFailure).1.curated_industry_data =
        curatedOf (curate_data s noEvalFailure).1 DataCategory.industry from rfl,
      curate_data_curatedOf, curate_data_curatedOf, hfold, hfold]
    exact this
  · have := hrest DataCategory.company (by decide)
    rw [show (curate_data s failFinancialOnly).1.curated_company_data =
        curatedOf (curate_data s failFinancialOnly).1 DataCategory.company from rfl,
      show (curate_data s noEvalFailure).1.curated_company_data =
        curatedOf (curate_data s noEvalFailure).1 DataCategory.company from rfl,
      curate_data_curatedOf, curate_data_curatedOf, hfold, hfold]
    exact this
  · rw [show ((curate_data s failFinancialOnly).2).financial_data =
        ((curate_data s failFinancialOnly).2).get DataCategory.financial from rfl,
      curate_data_counts, hfold]
    rw [fold_counts_notMem _ _ _ (by decide), hstep1]
    dsimp only
    exact DocCounts.get_set_self _ _ _

/-- A concrete state for the C5 witness: one financial document and one
news document. -/
def exStateC5 : ResearchState :=
  { financial_data := [("https://f.com/a?x=1", exDocA)]
    news_data := [("https://n.com/a", exDocB)] }

/-- Witness for C5 at `exStateC5`: the news category curates identically
with and without the financial failure, and the financial count degrades
to `{initial: 1, kept: 0}`. -/
theorem curation_failure_isolated_witness :
    ((curate_data exStateC5 failFinancialOnly).1.curated_news_data =
      (curate_data exStateC5 noEvalFailure).1.curated_news_data) ∧
    ((curate_data exStateC5 failFinancialOnly).2).financial_data =
      some ⟨1, 0⟩ := by
  have hmain := curation_failure_isolated exStateC5 (by simp [exStateC5])
  refine ⟨hmain.1, ?_⟩
  rw [hmain.2.2.2]
  rfl

/-! ## Lemmas about the object-identity view -/

lemma dedupH_go_length (tag : String) (data : List (String × Nat))
    (acc : List (String × Nat) × Heap) :
    ((data.foldl (dedupStepH tag) acc).2).length = acc.2.length := by
  induction data generalizing acc with
  | nil => rfl
  | cons q rest ih =>
    rw [List.foldl_cons]
    rw [ih (dedupStepH tag acc q)]
    unfold dedupStepH
    dsimp only
    split
    · rfl
    · split
      · exact List.length_set _ _ _
      · rfl

lemma dedupH_go_ids (tag : String) (data : List (String × Nat))
    (acc : List (String × Nat) × Heap) :
    ∀ p ∈ (data.foldl (dedupStepH tag) acc).1,
      p ∈ acc.1 ∨ p.2 ∈ data.map Prod.snd := by
  induction data generalizing acc with
  | nil => exact fun p hp => Or.inl hp
  | cons q rest ih =>
    intro p hp
    rw [List.foldl_cons] at hp
    rcases ih (dedupStepH tag acc q) p hp with hstep | hrest
    · unfold dedupStepH at hstep
      dsimp only at hstep
      split at hstep
      · exact Or.inl hstep
      · split at hstep
        · rcases List.mem_append.mp hstep with h1 | h2
          · exact Or.inl h1
          · right
            rw [List.mem_singleton] at h2
            rw [h2]
            exact List.mem_cons_self _ _
        · exact Or.inl hstep
    · exact Or.inr (List.mem_cons_of_mem _ hrest)

lemma dedupH_go_mutation (tag : String) (data : List (String × Nat))
    (acc : List (String × Nat) × Heap)
    (hnd : (data.map Prod.snd).Nodup)
    (hdisj : ∀ p ∈ acc.1, p.2 ∉ data.map Prod.snd)
    (hacc : ∀ p ∈ acc.1, ∃ d, acc.2[p.2]? = some d ∧
      d.url = p.1 ∧ d.doc_type = tag) :
    ∀ p ∈ (data.foldl (dedupStepH tag) acc).1,
      ∃ d, ((data.foldl (dedupStepH tag) acc).2)[p.2]? = some d ∧
        d.url = p.1 ∧ d.doc_type = tag := by
  induction data generalizing acc with
  | nil => exact hacc
  | cons q rest ih =>
    rw [List.map_cons, List.nodup_cons] at hnd
    rw [List.foldl_cons]
    by_cases hany : (acc.1.any (fun r => r.1 == cleanUrl q.1)) = true
    · have hstep : dedupStepH tag acc q = acc := by
        unfold dedupStepH; dsimp only; rw [if_pos hany]
      rw [hstep]
      refine ih acc hnd.2 (fun p hp hmem => hdisj p hp ?_) hacc
      rw [List.map_cons]
      exact List.mem_cons_of_mem _ hmem
    · cases hget : acc.2[q.2]? with
      | none =>
        have hstep : dedupStepH tag acc q = acc := by
          unfold dedupStepH; dsimp only; rw [if_neg hany, hget]
        rw [hstep]
        refine ih acc hnd.2 (fun p hp hmem => hdisj p hp ?_) hacc
        rw [List.map_cons]
        exact List.mem_cons_of_mem _ hmem
      | some d =>
        have hstep : dedupStepH tag acc q =
            (acc.1 ++ [(cleanUrl q.1, q.2)],
             acc.2.set q.2 { d with url := cleanUrl q.1, doc_type := tag }) := by
          unfold dedupStepH; dsimp only; rw [if_neg hany, hget]
        rw [hstep]
        refine ih _ hnd.2 (fun p hp hmem => ?_) (fun p hp => ?_)
        · rcases List.mem_append.mp hp with h1 | h2
          · exact hdisj p h1 (by rw [List.map_cons]; exact List.mem_cons_of_mem _ hmem)
          · rw [List.mem_singleton] at h2
            rw [h2] at hmem
            exact hnd.1 hmem
        · rcases List.mem_append.mp hp with h1 | h2
          · obtain ⟨d', hd', hurl, htype⟩ := hacc p h1
            have hne : q.2 ≠ p.2 := by
              intro he
              exact hdisj p h1 (by rw [List.map_cons, ← he]; exact List.mem_cons_self _ _)
            refine ⟨d', ?_, hurl, htype⟩
            rw [List.getElem?_set_ne hne]
            exact hd'
          · rw [List.mem_singleton] at h2
            rw [h2]
            have hlt : q.2 < acc.2.length := by
              obtain ⟨hl, _⟩ := List.getElem?_eq_some_iff.mp hget
              exact hl
            exact ⟨_, List.getElem?_set_self hlt, rfl, rfl⟩

lemma evalH_go_fresh (ids : List Nat) (acc : List Nat × Heap) (bound : Nat)
    (hlen : bound ≤ acc.2.length) (hacc : ∀ i ∈ acc.1, bound ≤ i) :
    (∀ i ∈ (ids.foldl evalStepH acc).1, bound ≤ i) ∧
      bound ≤ ((ids.foldl evalStepH acc).2).length := by
  induction ids generalizing acc with
  | nil => exact ⟨hacc, hlen⟩
  | cons i rest ih =>
    rw [List.foldl_cons]
    cases hget : acc.2[i]? with
    | none =>
      have hstep : evalStepH acc i = acc := by unfold evalStepH; rw [hget]
      rw [hstep]
      exact ih acc hlen hacc
    | some d =>
      cases hc : coerceScore d.score with
      | none =>
        have hstep : evalStepH acc i = acc := by
          unfold evalStepH; rw [hget]; dsimp only; rw [hc]
        rw [hstep]
        exact ih acc hlen hacc
      | some q =>
        by_cases ht : relevance_threshold ≤ q
        · have hstep : evalStepH acc i =
              (acc.1 ++ [acc.2.length], acc.2 ++ [annotate d q]) := by
            unfold evalStepH; rw [hget]; dsimp only; rw [hc]; dsimp only
            rw [if_pos ht]
          rw [hstep]
          refine ih _ ?_ (fun j hj => ?_)
          · rw [List.length_append]
            exact Nat.le_add_right_of_le hlen
          · rcases List.mem_append.mp hj with h1 | h2
            · exact hacc j h1
            · rw [List.mem_singleton] at h2
              rw [h2]
              exact hlen
        · have hstep : evalStepH acc i = acc := by
            unfold evalStepH; rw [hget]; dsimp only; rw [hc]; dsimp only
            rw [if_neg ht]
          rw [hstep]
          exact ih acc hlen hacc

lemma evaluate_documentsH_fresh (ids : List Nat) (h : Heap) :
    ∀ i ∈ (evaluate_documentsH ids h).1, h.length ≤ i := by
  intro i hi
  unfold evaluate_documentsH at hi
  dsimp only at hi
  rw [mem_sortByDesc] at hi
  exact (evalH_go_fresh ids ([], h) h.length (le_refl _)
    (fun _ hj => absurd hj (List.not_mem_nil _))).1 i hi

/-! ## Claim C9 — in-place mutation vs. the curated references -/

/-- The single raw document of the C9 scenario, stored at heap index 0;
its score is the normal form of `9/10` (see `rawDocC9_score`). -/
def rawDocC9 : Doc :=
  { title := "R", url := "https://a.com/x",
    score := .num ⟨9, 10, by decide, by decide⟩, query := "q" }

lemma rawDocC9_score : rawDocC9.score = .num (9/10) := by
  rw [show rawDocC9.score = ScoreVal.num (Rat.mk' 9 10) from rfl,
    Rat.mk'_eq_divInt, Rat.divInt_eq_div]
  norm_num

/-- C9 counterexample: running one category's curation on a store holding
exactly one raw document (reference 0) yields a curated mapping holding
reference 1 — the fresh `{**doc, "evaluation": ...}` copy allocated by
evaluation — while the raw mapping's own reference 0 now shows the in-place
`doc_type` (and normalized-`url`) rewrite and still has NO evaluation
attached: the curated mapping does not store the same object reference as
the raw mapping. -/
theorem curated_stores_fresh_copy_cex :
    (curateOneH "company" [("https://a.com/x", 0)] [rawDocC9]).1 =
      some [("https://a.com/x", 1)] ∧
    ((curateOneH "company" [("https://a.com/x", 0)] [rawDocC9]).2)[0]? =
      some { rawDocC9 with doc_type := "company" } ∧
    (((curateOneH "company" [("https://a.com/x", 0)] [rawDocC9]).2)[1]?).map
      (fun d => d.evaluation.isSome) = some true ∧
    (1 : Nat) ≠ 0 := by
  refine ⟨by decide, by decide, by decide, by decide⟩

/-- C9 amended: `curate_data` does mutate the raw per-category document
objects in place during deduplication — the dedup pass allocates nothing
and, for every surviving `(clean_url, ref)` pair, `ref` is a reference
taken from the raw mapping whose stored document now carries the
query/fragment-stripped `url` and the category tag, so the mutations are
visible through the original raw mappings; the curated mapping, however,
stores FRESH references allocated by the evaluation pass (the
`{**doc, "evaluation": ...}` copies), not the raw mapping's references.
(The raw references are assumed pairwise distinct, as dict values of one
mapping are distinct objects.) -/
theorem curate_mutation_in_place (tag : String) (data : List (String × Nat))
    (h : Heap) (hnd : (data.map Prod.snd).Nodup) :
    ((dedupDocsH tag data h).2).length = h.length ∧
    (∀ p ∈ (dedupDocsH tag data h).1,
        p.2 ∈ data.map Prod.snd ∧
        ∃ d, ((dedupDocsH tag data h).2)[p.2]? = some d ∧
          d.url = p.1 ∧ d.doc_type = tag) ∧
    (∀ ids : List Nat, ∀ h0 : Heap, ∀ i ∈ (evaluate_documentsH ids h0).1,
        h0.length ≤ i) := by
  refine ⟨dedupH_go_length tag data ([], h), fun p hp => ⟨?_, ?_⟩,
    fun ids h0 => evaluate_documentsH_fresh ids h0⟩
  · rcases dedupH_go_ids tag data ([], h) p hp with h1 | h2
    · exact absurd h1 (List.not_mem_nil _)
    · exact h2
  · exact dedupH_go_mutation tag data ([], h) hnd
      (fun q hq => absurd hq (List.not_mem_nil _))
      (fun q hq => absurd hq (List.not_mem_nil _)) p hp

/-- Witness for C9's amended statement at the concrete scenario store. -/
theorem curate_mutation_in_place_witness :
    ((dedupDocsH "company" [("https://a.com/x", 0)] [rawDocC9]).2).length =
      ([rawDocC9] : Heap).length ∧
    (∀ p ∈ (dedupDocsH "company" [("https://a.com/x", 0)] [rawDocC9]).1,
        p.2 ∈ [("https://a.com/x", 0)].map Prod.snd ∧
        ∃ d, ((dedupDocsH "company" [("https://a.com/x", 0)] [rawDocC9]).2)[p.2]? =
            some d ∧ d.url = p.1 ∧ d.doc_type = "company") ∧
    (∀ ids : List Nat, ∀ h0 : Heap, ∀ i ∈ (evaluate_documentsH ids h0).1,
        h0.length ≤ i) :=
  curate_mutation_in_place "company" [("https://a.com/x", 0)] [rawDocC9]
    (by decide)

end CompanyResearch
